import Mathlib

/-!
Verification of the retrieval-and-routing engine of the `rag` repository.

The development shallowly embeds the Python sources:
  * `src/utils/pickle_storage.py` — the vector store (`PickleStorage`):
    `store_vectors`, `_cosine_similarity`, `similarity_search`;
  * `src/tools/rag_tool.py` — `RAGTool`: `process_documents`,
    `query_with_context`, `clear_knowledge_base`;
  * `src/orchestrateur.py` — classification/dispatch in `main`,
    `handle_rag_query`, `handle_wikipedia_scrap`, and the chat-message
    construction of the branches.

Modelling conventions:
  * Python floats are modelled as exact numbers.  A cosine-similarity value
    `dot / (‖v1‖ * ‖v2‖)` is irrational in general, so it is represented
    exactly by the pair `(dot, ‖v1‖² * ‖v2‖²)` (structure `SimVal`); the
    represented real number is `num / Real.sqrt msq`, and the decidable
    comparison `simLe` is proved to agree with the real-number order.
  * Exceptions are modelled with `Except`: `np.dot` on 1-D arrays of
    different lengths raises `ValueError` (modelled as
    `Err.dimensionMismatch`), and iterating over `None` raises `TypeError`
    (modelled as `Err.noneNotIterable`).
  * External capabilities (the embedding/chat HTTP endpoints, document
    parsing, web search and page fetching) are out of scope per the spec;
    their responses enter the embedded functions as explicit arguments.
-/

/-! ## Exact arithmetic for cosine similarity -/

/-- Sum of squares of a vector; `np.linalg.norm v = Real.sqrt (sumSq v)`. -/
def sumSq (v : List ℚ) : ℚ := (v.map (fun x => x * x)).sum

/-- Dot product of two equal-length vectors (`np.dot` on 1-D arrays). -/
def dotP (v1 v2 : List ℚ) : ℚ := (List.zipWith (fun x y => x * y) v1 v2).sum

/-- Exact representation of a similarity value produced by
`PickleStorage._cosine_similarity`: the real number `num / Real.sqrt msq`
with `msq > 0`.  In the unguarded branch of the source, `num` is the dot
product and `msq = ‖v1‖² * ‖v2‖²`, so `Real.sqrt msq = ‖v1‖ * ‖v2‖`. -/
structure SimVal where
  num : ℚ
  msq : ℚ
  pos : 0 < msq

/-- The value `0.0` returned by the zero-norm guard (`0 / Real.sqrt 1 = 0`). -/
def simZero : SimVal := ⟨0, 1, one_pos⟩

/-- The similarity value computed by `_cosine_similarity` for vectors of
equal length (`pickle_storage.py:45-57`): `0.0` when either norm is zero,
else `dot / (norm1 * norm2)`, represented as `⟨dot, norm1² * norm2²⟩`. -/
def cosSim (v1 v2 : List ℚ) : SimVal :=
  if h : sumSq v1 = 0 ∨ sumSq v2 = 0 then simZero
  else
    ⟨dotP v1 v2, sumSq v1 * sumSq v2, by
      have nn : ∀ v : List ℚ, 0 ≤ sumSq v := fun v =>
        List.sum_nonneg fun x hx => by
          rcases List.mem_map.mp hx with ⟨y, _, rfl⟩
          exact mul_self_nonneg y
      rcases not_or.mp h with ⟨h1, h2⟩
      exact mul_pos (lt_of_le_of_ne (nn v1) (Ne.symm h1))
        (lt_of_le_of_ne (nn v2) (Ne.symm h2))⟩

/-- Decidable order on represented similarity values.  Using that
`t ↦ t * |t|` is strictly monotone on ℝ,
`a.num / √a.msq ≤ b.num / √b.msq ↔ a.num*|a.num|*b.msq ≤ b.num*|b.num|*a.msq`
(the denominators are positive); `simLe_iff_toReal` below proves the
agreement with the real-number order on the represented values. -/
def simLe (a b : SimVal) : Prop :=
  a.num * |a.num| * b.msq ≤ b.num * |b.num| * a.msq

instance (a b : SimVal) : Decidable (simLe a b) :=
  inferInstanceAs (Decidable (_ ≤ _))

instance : DecidableEq SimVal := fun a b =>
  decidable_of_iff (a.num = b.num ∧ a.msq = b.msq) (by
    cases a
    cases b
    simp)

/-- Errors raised by the embedded code.  `dimensionMismatch` stands for the
`ValueError` that `np.dot` raises on misaligned 1-D shapes;
`noneNotIterable` stands for the `TypeError` raised when iterating over
`None`. -/
inductive Err where
  | dimensionMismatch
  | noneNotIterable
deriving DecidableEq

/-- `PickleStorage._cosine_similarity` (`pickle_storage.py:45-57`).
`np.dot` raises `ValueError` when the two 1-D arrays have different
lengths; otherwise the guarded cosine value is computed. -/
def cosine_similarity (v1 v2 : List ℚ) : Except Err SimVal :=
  if v1.length = v2.length then .ok (cosSim v1 v2)
  else .error .dimensionMismatch

/-! ## The store -/

/-- One metadata dict as built by ingestion
(`rag_tool.py:102-109`, `main.py:28`). -/
structure Metadata where
  file_name : String
  chunk_index : String
  file_path : String
deriving DecidableEq, Inhabited

/-- `PickleStorage.data`: the four parallel collections. -/
structure StoreData where
  ids : List String
  documents : List String
  embeddings : List (List ℚ)
  metadatas : List Metadata
deriving DecidableEq

/-- The empty structure from `_load_or_initialize` (`pickle_storage.py:22-27`). -/
def emptyStore : StoreData := ⟨[], [], [], []⟩

/-- `PickleStorage.store_vectors` (`pickle_storage.py:29-43`): extends each
of the four collections with the corresponding batch (argument order as in
the source: ids, embeddings, metadatas, documents).  The `pickle.dump`
persistence side effect is outside the state model. -/
def store_vectors (d : StoreData) (ids : List String) (embeddings : List (List ℚ))
    (metadatas : List Metadata) (documents : List String) : StoreData :=
  { ids := d.ids ++ ids
    documents := d.documents ++ documents
    embeddings := d.embeddings ++ embeddings
    metadatas := d.metadatas ++ metadatas }

/-- `RAGTool.clear_knowledge_base` (`rag_tool.py:220-241`): resets
`storage.data` to the four empty collections (the reset happens before the
`pickle.dump`; even if the dump fails the in-memory state is the empty
store). -/
def clear_knowledge_base (_ : StoreData) : StoreData := emptyStore

/-- One logical record: the four collections of an aligned store are the
four projections of a single record list. -/
structure RecordR where
  id : String
  document : String
  embedding : List ℚ
  metadata : Metadata

/-- Store states reachable from the empty store by `store_vectors` and
`clear_knowledge_base` calls.  Per the spec contract (§4.1), `store`
appends four *equal-length* sequences; every call site in the repository
(`rag_tool.py:92-117`, `main.py:25-34`) builds the four batch lists with
one entry per chunk, so the equal-length hypotheses hold there. -/
inductive ReachableStore : StoreData → Prop where
  | empty : ReachableStore emptyStore
  | store (d : StoreData) (ids : List String) (embeds : List (List ℚ))
      (metas : List Metadata) (docs : List String)
      (hd : ReachableStore d)
      (h1 : ids.length = docs.length)
      (h2 : ids.length = embeds.length)
      (h3 : ids.length = metas.length) :
      ReachableStore (store_vectors d ids embeds metas docs)
  | clear (d : StoreData) (hd : ReachableStore d) :
      ReachableStore (clear_knowledge_base d)

/-! ## Similarity search -/

/-- One result dict of `similarity_search` (`pickle_storage.py:79-84`).
The source stores `"distance": 1 - similarity`; since `s ↦ 1 - s` is an
exact order-reversing bijection we record the similarity value itself,
which determines the stored distance. -/
structure SearchResult where
  document : String
  metadata : Metadata
  similarity : SimVal
deriving DecidableEq

/-- Python `enumerate`, starting at `n`. -/
def pyEnumFrom (n : ℕ) : List α → List (ℕ × α)
  | [] => []
  | a :: l => (n, a) :: pyEnumFrom (n + 1) l

/-- Python `enumerate(l)`. -/
def pyEnum (l : List α) : List (ℕ × α) := pyEnumFrom 0 l

/-- Sequential effectful map over a Python `for` loop body that may raise:
the first exception aborts the whole loop and propagates. -/
def exMap {ε : Type} (f : α → Except ε β) : List α → Except ε (List β)
  | [] => .ok []
  | a :: l =>
    match f a with
    | .error e => .error e
    | .ok b =>
      match exMap f l with
      | .error e => .error e
      | .ok bs => .ok (b :: bs)

/-- The `similarities` list built by the loop in `similarity_search`
(`pickle_storage.py:68-71`): pairs `(i, similarity)` in enumeration order;
the first `ValueError` from `np.dot` propagates. -/
def enumSims (d : StoreData) (q : List ℚ) : Except Err (List (ℕ × SimVal)) :=
  exMap (fun p => (cosine_similarity q p.2).map (fun s => (p.1, s)))
    (pyEnum d.embeddings)

/-- Descending comparison used by
`similarities.sort(key=lambda x: x[1], reverse=True)`:
`a` may come before `b` iff `a`'s similarity is at least `b`'s.
Python's sort is stable, and stability is preserved under `reverse=True`;
`List.insertionSort` with this relation is exactly that stable descending
sort (an element is inserted before the first element whose key is not
greater, hence after all strictly-greater keys and before equal keys). -/
def rDesc (a b : ℕ × SimVal) : Prop := simLe b.2 a.2

instance : DecidableRel rDesc := fun a b =>
  inferInstanceAs (Decidable (simLe b.2 a.2))

/-- Correctness relation for the stable descending sort: `a` precedes `b`
iff `a`'s similarity is at least `b`'s, and in case of a tie (equal
similarity values) `a` was enumerated earlier. -/
def rStable (a b : ℕ × SimVal) : Prop :=
  simLe b.2 a.2 ∧ (simLe a.2 b.2 → a.1 < b.1)

/-- Python slice `l[:k]` for an arbitrary integer `k`: for `k ≥ 0` the
first `k` elements; for `k < 0` all but the last `|k|` elements. -/
def pySliceTo (l : List α) (k : ℤ) : List α :=
  if 0 ≤ k then l.take k.toNat else l.take (l.length - (-k).toNat)

/-- Builds one result dict from a ranked `(index, similarity)` pair
(`pickle_storage.py:79-84`).  The source indexes
`self.data['documents'][idx]`; the indices come from enumerating
`self.data['embeddings']`, and on aligned stores (see `ReachableStore`)
they are in range, so the total `getD` access models the source. -/
def mkResult (d : StoreData) (p : ℕ × SimVal) : SearchResult :=
  ⟨d.documents.getD p.1 "", d.metadatas.getD p.1 default, p.2⟩

/-- `PickleStorage.similarity_search` (`pickle_storage.py:59-86`):
empty-embeddings guard, similarity loop, stable descending sort,
`[:k]` slice, and result construction. -/
def similarity_search (d : StoreData) (q : List ℚ) (k : ℤ) :
    Except Err (List SearchResult) :=
  if d.embeddings.isEmpty then .ok []
  else
    match enumSims d q with
    | .error e => .error e
    | .ok sims => .ok ((pySliceTo (sims.insertionSort rDesc) k).map (mkResult d))

/-- `similarity_search` viewed as a state transition: the method only reads
`self.data` and performs no assignment, so the store after the call is the
store before it. -/
def similarity_searchOp (d : StoreData) (q : List ℚ) (k : ℤ) :
    Except Err (List SearchResult) × StoreData :=
  (similarity_search d q k, d)

/-! ## Chat messages and `RAGTool.query_with_context` -/

/-- OpenAI-style message roles. -/
inductive Role where
  | system
  | user
  | assistant
deriving DecidableEq

/-- One chat message `{"role": ..., "content": ...}`. -/
structure ChatMsg where
  role : Role
  content : String
deriving DecidableEq

/-- Python `repr` of one metadata dict, as interpolated by the f-string
`f"Metadata: {attachment['metadata']}"` (escapes: `\x7b` `{`, `\x7d` `}`,
`\x27` `'`). -/
def metaStr (m : Metadata) : String :=
  "\x7b\x27file_name\x27: \x27" ++ m.file_name ++ "\x27, \x27chunk_index\x27: \x27"
    ++ m.chunk_index ++ "\x27, \x27file_path\x27: \x27" ++ m.file_path ++ "\x27\x7d"

/-- Default system prompt of `query_with_context` (`rag_tool.py:175-180`). -/
def defaultRagSystemPrompt : String :=
  "Tu es un assistant utile qui répond aux questions en utilisant "
    ++ "les documents fournis. Utilise en priorité les documents fournis "
    ++ "et ensuite les documents de la base de connaissances."

/-- Python truthiness of an optional list (`if chat_history:` extends only
when the value is neither `None` nor the empty list). -/
def pyTruthy (l : Option (List α)) : List α :=
  match l with
  | some xs => if xs.isEmpty then [] else xs
  | none => []

/-- `RAGTool.query_with_context` (`rag_tool.py:152-191`) up to its single
`chat` call: the function only formats its `attachments` argument (it never
performs a retrieval itself; `k` is unused by the body).  The very first
step iterates `attachments` in a list comprehension, so the default
`attachments=None` raises `TypeError` before anything else; otherwise it
returns the message list handed to the chat capability
(history, then system prompt, then the grounded user message). -/
def queryWithContextMessages (query : String) (_k : ℤ)
    (attachments : Option (List SearchResult)) (systemPrompt : Option String)
    (chatHistory : Option (List ChatMsg)) : Except Err (List ChatMsg) :=
  match attachments with
  | none => .error .noneNotIterable
  | some atts =>
    let context := String.intercalate "\n"
      (atts.map (fun a => "Document: " ++ a.document ++ "\nMetadata: " ++ metaStr a.metadata))
    let sysp := systemPrompt.getD defaultRagSystemPrompt
    .ok (pyTruthy chatHistory ++
      [⟨.system, sysp⟩, ⟨.user, "Knowledge base: " ++ context ++ "\n\nQuery: " ++ query⟩])

/-! ## `handle_rag_query` (`orchestrateur.py:26-89`) -/

/-- Observable outcome of `handle_rag_query`. -/
inductive RagOutcome where
  /-- `stats['total_documents'] == 0`: empty-KB notice, then `handle_internet_query`. -/
  | emptyKbInternet
  /-- The response of `query_with_context` is sent with source elements. -/
  | answeredFromKb (msgs : List ChatMsg)
  /-- The `except` handler ran: apology, then `handle_internet_query`. -/
  | errorInternet
deriving DecidableEq

/-- `handle_rag_query`: empty-KB check
(`stats['total_documents']` is `len(data['documents'])`), then inside
`try`: `similarity_search(query, k=5)` followed by
`query_with_context(query, k=5)` — the latter called *without* an
`attachments` argument.  Any exception lands in the `except` branch, which
falls back to the internet branch.  `qvec` is the embedding of the query
returned by the external embedding capability. -/
def handleRagQuery (kb : StoreData) (qvec : List ℚ) (query : String) : RagOutcome :=
  if kb.documents.length = 0 then .emptyKbInternet
  else
    match similarity_search kb qvec 5 with
    | .error _ => .errorInternet
    | .ok _results =>
      match queryWithContextMessages query 5 none none none with
      | .error _ => .errorInternet
      | .ok msgs => .answeredFromKb msgs

/-! ## Classification and dispatch (`orchestrateur.py:388-425`) -/

/-- The whitespace characters removed by Python `str.strip()`
(ASCII subset; the claims only involve ASCII classifier output). -/
def isPySpace (c : Char) : Bool :=
  c == ' ' || c == '\t' || c == '\n' || c == '\r' || c == '\x0b' || c == '\x0c'

/-- Structural worker for `replaceAll`.  `fuel` only bounds the recursion:
every step consumes at least one character of `s`, so starting with
`fuel = s` the `fuel`-exhausted case is never reached. -/
def replaceAllAux (pat rep : List Char) : List Char → List Char → List Char
  | _, [] => []
  | [], s => s
  | _ :: fs, c :: rest =>
    if pat.isPrefixOf (c :: rest) ∧ ¬pat.isEmpty then
      rep ++ replaceAllAux pat rep fs ((c :: rest).drop pat.length)
    else
      c :: replaceAllAux pat rep fs rest

/-- Python `s.replace(pat, rep)` for a non-empty pattern: leftmost,
non-overlapping, continuing after each replacement. -/
def replaceAll (pat rep s : List Char) : List Char :=
  replaceAllAux pat rep s s

/-- Python `s.strip()`. -/
def pyStripChars (s : List Char) : List Char :=
  ((s.dropWhile isPySpace).reverse.dropWhile isPySpace).reverse

/-- `response.replace("<think>", "").replace("</think>", "").strip()`
(`orchestrateur.py:401`). -/
def stripThink (s : List Char) : List Char :=
  pyStripChars (replaceAll "</think>".toList [] (replaceAll "<think>".toList [] s))

/-- The processed classifier response the dispatch tests are applied to. -/
def processedResponse (raw : String) : List Char :=
  stripThink raw.toList

/-- Python substring test `pat in s`. -/
def containsSub (pat s : List Char) : Bool :=
  s.tails.any (fun t => pat.isPrefixOf t)

/-- `tool in response.upper()` for an already-uppercase tool name
(`Char.toUpper` models `str.upper()` on the ASCII range). -/
def containsTool (tool : String) (resp : List Char) : Bool :=
  containsSub tool.toList (resp.map Char.toUpper)

/-- The routing tools of the spec taxonomy (§3, RoutingDecision).  The
source dispatch never produces `llm` (or `scraping`): it only distinguishes
RAG, INTERNET and a default. -/
inductive Branch where
  | rag
  | internet
  | llm
deriving DecidableEq

/-- The dispatch of `main` (`orchestrateur.py:406-425`): `if "RAG" in
response.upper()` → RAG branch; `elif "INTERNET" in response.upper()` →
internet branch; `else` → "Default to internet search if unclear" — the
internet branch again.  No branch aborts the turn. -/
def orchestratorDispatch (raw : String) : Branch :=
  let resp := processedResponse raw
  if containsTool "RAG" resp then .rag
  else if containsTool "INTERNET" resp then .internet
  else .internet

/-! ## The chat calls of one text-query turn (`orchestrateur.py:296-425`) -/

/-- Classifier system prompt (`orchestrateur.py:389-395`);
`\x27` escapes `'`. -/
def orchestratorSystemPrompt : String :=
  "/no_think Tu es un orchestrateur d\x27IA. Ton rôle est de choisir l\x27outil le plus adapté pour répondre à la question de l\x27utilisateur.\n\n"
    ++ "Voici les règles strictes à suivre pour choisir un outil :\n\n"
    ++ "- Réponds `RAG` si la question concerne le développement Python, la programmation, ou des sujets techniques qui pourraient être dans une base de connaissances locale.\n"
    ++ "- Réponds `INTERNET` pour toutes les autres questions, y compris les actualités, les événements récents, les informations générales, ou toute question nécessitant des informations à jour.\n\n"
    ++ "Réponds uniquement par `RAG` ou `INTERNET`. Ne donne aucune autre information."

/-- The classification chat call (`orchestrateur.py:397-400`); note the
source concatenates `"Question :" + query` without a space. -/
def classifierMessages (query : String) : List ChatMsg :=
  [⟨.system, orchestratorSystemPrompt⟩, ⟨.user, "Question :" ++ query⟩]

/-- Default system prompt of `search_and_summarize`
(`internet_search_tool.py:325-330`). -/
def defaultInternetPrompt : String :=
  "Tu es un assistant utile qui répond aux questions en utilisant "
    ++ "les informations trouvées sur Internet. Fournis une réponse complète "
    ++ "et précise basée sur les sources fournies. Cite les sources quand possible."

/-- The single chat call of `search_and_summarize`
(`internet_search_tool.py:332-338`); `context` is the sourced context block
assembled from the extracted pages. -/
def searchSummarizeMessages (customPrompt : Option String) (context query : String) :
    List ChatMsg :=
  [⟨.system, customPrompt.getD defaultInternetPrompt⟩,
   ⟨.user, "Sources Internet:\n" ++ context ++ "\n\nQuestion: " ++ query⟩]

/-- System prompt of the Wikipedia branch (`orchestrateur.py:137-141`). -/
def wikipediaSystemPrompt : String :=
  "Tu es un assistant utile qui répond aux questions en utilisant "
    ++ "le contenu Wikipedia fourni. Fournis une réponse complète et précise "
    ++ "basée sur les informations extraites."

/-- The single chat call of the Wikipedia branch (`orchestrateur.py:143-146`). -/
def wikipediaChatMessages (content query : String) : List ChatMsg :=
  [⟨.system, wikipediaSystemPrompt⟩,
   ⟨.user, "Contenu Wikipedia:\n" ++ content ++ "\n\nQuestion: " ++ query⟩]

/-- The module-level mutable state of `orchestrateur.py` that persists
across turns: the RAG tool storage (`rag_tool.storage.data`).  The module
defines no conversation-history container of any kind; the
`internet_search_tool.session` HTTP handle is omitted as it carries no
conversational data. -/
structure OrchestratorState where
  kb : StoreData
deriving DecidableEq

/-- The external responses consumed during one plain-text turn (no file
elements, no `/upload` command, no Wikipedia URL in the message): the
classifier reply, the embedding of the query, and the web-search outcome
of the internet branch. -/
structure TurnInput where
  query : String
  classifierResponse : String
  queryVec : List ℚ
  searchHasResults : Bool
  internetContext : String
deriving DecidableEq

/-- Chat calls of `handle_internet_query` (`orchestrateur.py:92-124`):
`search_and_extract` performs no chat call; `search_and_summarize` makes
exactly one unless the search found nothing, in which case it returns a
literal error string without calling the chat capability
(`internet_search_tool.py:310-311`). -/
def internetChatCalls (inp : TurnInput) : List (List ChatMsg) :=
  if inp.searchHasResults then
    [searchSummarizeMessages none inp.internetContext inp.query]
  else []

/-- Chat calls of the RAG branch: `query_with_context` would perform the
single chat call of the answered case; on the empty-KB path and on the
exception path `handle_internet_query` runs instead. -/
def ragBranchChatCalls (st : OrchestratorState) (inp : TurnInput) :
    List (List ChatMsg) :=
  match handleRagQuery st.kb inp.queryVec inp.query with
  | .answeredFromKb msgs => [msgs]
  | .emptyKbInternet => internetChatCalls inp
  | .errorInternet => internetChatCalls inp

/-- One plain-text turn of `main` (`orchestrateur.py:370-425`): the
classifier chat call, then the dispatched branch's chat calls.  The second
component is the module state after the turn: the text-query path of
`main` contains no assignment to any module-level variable, so the state
is returned unchanged. -/
def mainTextTurn (st : OrchestratorState) (inp : TurnInput) :
    List (List ChatMsg) × OrchestratorState :=
  let resp := processedResponse inp.classifierResponse
  let calls :=
    if containsTool "RAG" resp then ragBranchChatCalls st inp
    else internetChatCalls inp
  (classifierMessages inp.query :: calls, st)

/-- Modelled from the spec: the rolling-history bound — "trimmed to the
most recent N turns (N=10) before each use" (§3, ConversationTurn).  No
trimming code exists anywhere under `src/`. -/
def specTrimHistory (h : List ChatMsg) : List ChatMsg :=
  h.drop (h.length - 10)

/-- Modelled from the spec: the history update of §4.6 step 4 — "on any
successful branch that produces a user-visible answer, append
`{user, query}` then `{assistant, answer}` to the rolling history, then
trim to the last 10 turns".  No such update exists anywhere under `src/`. -/
def specHistoryUpdate (h : List ChatMsg) (q a : String) : List ChatMsg :=
  specTrimHistory (h ++ [⟨.user, q⟩, ⟨.assistant, a⟩])

/-! ## `handle_wikipedia_scrap` (`orchestrateur.py:127-160`) -/

/-- Observable outcome of the scraping branch. -/
inductive WikiOutcome where
  /-- One chat call grounded on the extracted text, then the sourced answer. -/
  | answered (msgs : List ChatMsg) (sourceUrl : String)
  /-- Extraction treated as failed: notice, then `handle_internet_query`. -/
  | fallbackInternet
deriving DecidableEq

/-- `handle_wikipedia_scrap`: the test on the extraction result is
`if content['content'] and len(content['content']) > 50:`
(`orchestrateur.py:135`) — non-empty content of *strictly more than* 50
characters answers via one grounded chat call; anything else falls back to
the internet branch. -/
def handleWikipediaScrap (content query url : String) : WikiOutcome :=
  if content ≠ "" ∧ content.length > 50 then
    .answered (wikipediaChatMessages content query) url
  else .fallbackInternet

/-! ## `RAGTool.process_documents` (`rag_tool.py:44-131`) -/

/-- One chunk dict produced by `pipeline_parser` (`doc_parser.py:99-106`):
the fields consumed by `process_documents` are `"chunk"` (the text) and
`"id"` (the file id string, used as the `chunk_index` metadata value). -/
structure ChunkD where
  id : String
  chunk : String
deriving DecidableEq

/-- One input file of `process_documents`: its path, `Path(path).name` and
`Path(path).stem`. -/
structure DocInput where
  path : String
  name : String
  stem : String
deriving DecidableEq

/-- The `try` body of `process_documents` for one file
(`rag_tool.py:66-126`): parse into chunks (`pipeline_parser` may raise),
skip the file when no chunks were extracted, embed every chunk (the
embedding call may raise), then `store_vectors` once for the whole file.
`none` means the file was skipped (exception caught and logged, or no
chunks) and the store is untouched; embeddings are computed before the
single `store_vectors` call, so no partial batch is ever stored. -/
def processOneDoc (parse : String → Except Unit (List ChunkD))
    (embedText : String → Except Unit (List ℚ))
    (d : StoreData) (f : DocInput) : Option StoreData :=
  match parse f.path with
  | .error _ => none
  | .ok [] => none
  | .ok chunks =>
    match exMap (fun c => embedText c.chunk) chunks with
    | .error _ => none
    | .ok embeds =>
      some (store_vectors d
        ((List.range chunks.length).map (fun i => f.stem ++ "_" ++ toString i))
        embeds
        (chunks.map (fun c => ⟨f.name, c.id, f.path⟩))
        (chunks.map (fun c => c.chunk)))

/-- The `for file_path in file_paths` loop with its `processed_count`
accumulator (`rag_tool.py:63-126`). -/
def processDocumentsGo (parse : String → Except Unit (List ChunkD))
    (embedText : String → Except Unit (List ℚ)) :
    List DocInput → ℕ → StoreData → ℕ × StoreData
  | [], count, d => (count, d)
  | f :: rest, count, d =>
    match processOneDoc parse embedText d f with
    | none => processDocumentsGo parse embedText rest count d
    | some d2 => processDocumentsGo parse embedText rest (count + 1) d2

/-- `RAGTool.process_documents`: early `return False` on an empty file
list, else the per-file loop; the return value is `processed_count > 0`
(`rag_tool.py:131`), a boolean. -/
def process_documents (parse : String → Except Unit (List ChunkD))
    (embedText : String → Except Unit (List ℚ))
    (d : StoreData) (files : List DocInput) : Bool × StoreData :=
  if files.isEmpty then (false, d)
  else
    let r := processDocumentsGo parse embedText files 0 d
    (decide (0 < r.1), r.2)

/-- Whether `process_documents` ingests a given file: this depends only on
the parse/embed responses, not on the current store. -/
def docSucceeds (parse : String → Except Unit (List ChunkD))
    (embedText : String → Except Unit (List ℚ)) (f : DocInput) : Bool :=
  (processOneDoc parse embedText emptyStore f).isSome

/-! # Theorems -/

/-! ## Supporting lemmas: exact similarity values and their order -/

theorem sumSq_nonneg (v : List ℚ) : 0 ≤ sumSq v := by
  refine List.sum_nonneg ?_
  intro x hx
  rcases List.mem_map.mp hx with ⟨y, _, rfl⟩
  exact mul_self_nonneg y

theorem sumSq_pos_of_ne_zero {v : List ℚ} (h : sumSq v ≠ 0) : 0 < sumSq v :=
  lt_of_le_of_ne (sumSq_nonneg v) (Ne.symm h)

theorem mul_abs_strictMono : StrictMono (fun t : ℝ => t * |t|) := by
  intro x y hxy
  show x * |x| < y * |y|
  rcases abs_cases x with ⟨hx, hx0⟩ | ⟨hx, hx0⟩ <;>
    rcases abs_cases y with ⟨hy, hy0⟩ | ⟨hy, hy0⟩ <;>
      rw [hx, hy] <;> nlinarith

theorem mul_abs_le_iff (x y : ℝ) : x * |x| ≤ y * |y| ↔ x ≤ y :=
  mul_abs_strictMono.le_iff_le

/-- The decidable comparison `simLe` agrees with the order of the real
numbers the two `SimVal`s represent. -/
theorem simLe_iff_toReal (a b : SimVal) :
    simLe a b ↔
      (a.num : ℝ) / Real.sqrt (a.msq : ℝ) ≤ (b.num : ℝ) / Real.sqrt (b.msq : ℝ) := by
  have ha : (0 : ℝ) < (a.msq : ℝ) := by exact_mod_cast a.pos
  have hb : (0 : ℝ) < (b.msq : ℝ) := by exact_mod_cast b.pos
  have hsa : (0 : ℝ) < Real.sqrt (a.msq : ℝ) := Real.sqrt_pos.mpr ha
  have hsb : (0 : ℝ) < Real.sqrt (b.msq : ℝ) := Real.sqrt_pos.mpr hb
  rw [div_le_div_iff₀ hsa hsb, ← mul_abs_le_iff]
  have e1 : (a.num : ℝ) * Real.sqrt (b.msq : ℝ) * |(a.num : ℝ) * Real.sqrt (b.msq : ℝ)|
      = (a.num : ℝ) * |(a.num : ℝ)| * (b.msq : ℝ) := by
    rw [abs_mul, abs_of_nonneg hsb.le]
    ring_nf
    rw [Real.sq_sqrt hb.le]
    ring
  have e2 : (b.num : ℝ) * Real.sqrt (a.msq : ℝ) * |(b.num : ℝ) * Real.sqrt (a.msq : ℝ)|
      = (b.num : ℝ) * |(b.num : ℝ)| * (a.msq : ℝ) := by
    rw [abs_mul, abs_of_nonneg hsa.le]
    ring_nf
    rw [Real.sq_sqrt ha.le]
    ring
  rw [e1, e2]
  constructor
  · intro h
    exact_mod_cast h
  · intro h
    exact_mod_cast h

theorem simLe_refl (a : SimVal) : simLe a a := le_refl _

theorem simLe_total (a b : SimVal) : simLe a b ∨ simLe b a := le_total _ _

theorem simLe_trans {a b c : SimVal} (h1 : simLe a b) (h2 : simLe b c) : simLe a c := by
  rw [simLe_iff_toReal] at h1 h2 ⊢
  exact le_trans h1 h2

instance : IsTotal (ℕ × SimVal) rDesc :=
  ⟨fun a b => simLe_total b.2 a.2⟩

instance : IsTrans (ℕ × SimVal) rDesc :=
  ⟨fun _ _ _ hab hbc => simLe_trans hbc hab⟩

/-- The real number represented by the value that `_cosine_similarity`
computes for equal-length vectors is exactly the guarded cosine formula of
the source: `0` when either norm is zero, else
`dot / (‖v1‖ * ‖v2‖)` with `‖v‖ = Real.sqrt (sumSq v)`. -/
theorem cosSim_toReal (v1 v2 : List ℚ) :
    ((cosSim v1 v2).num : ℝ) / Real.sqrt ((cosSim v1 v2).msq : ℝ)
      = if sumSq v1 = 0 ∨ sumSq v2 = 0 then 0
        else (dotP v1 v2 : ℝ) /
          (Real.sqrt ((sumSq v1 : ℚ) : ℝ) * Real.sqrt ((sumSq v2 : ℚ) : ℝ)) := by
  unfold cosSim
  split_ifs with h
  · simp [simZero]
  · have h1 : (0 : ℝ) ≤ ((sumSq v1 : ℚ) : ℝ) := by exact_mod_cast sumSq_nonneg v1
    simp only [Rat.cast_mul]
    rw [Real.sqrt_mul h1]

/-! ## Supporting lemmas: stability of the descending sort -/

theorem orderedInsert_rStable (x : ℕ × SimVal) (l : List (ℕ × SimVal))
    (hp : l.Pairwise rStable) (hidx : ∀ z ∈ l, x.1 < z.1) :
    (l.orderedInsert rDesc x).Pairwise rStable := by
  induction l with
  | nil => simp [List.orderedInsert]
  | cons y ys ih =>
    rw [List.orderedInsert]
    rcases List.pairwise_cons.mp hp with ⟨hy, hys⟩
    by_cases hxy : rDesc x y
    · rw [if_pos hxy]
      refine List.Pairwise.cons ?_ hp
      intro z hz
      rcases List.mem_cons.mp hz with rfl | hz2
      · exact ⟨hxy, fun _ => hidx z (List.mem_cons_self _ _)⟩
      · exact ⟨simLe_trans (hy z hz2).1 hxy,
          fun _ => hidx z (List.mem_cons_of_mem _ hz2)⟩
    · rw [if_neg hxy]
      refine List.Pairwise.cons ?_ (ih hys fun z hz => hidx z (List.mem_cons_of_mem _ hz))
      intro z hz
      rcases (List.mem_orderedInsert rDesc).mp hz with rfl | hz2
      · exact ⟨(simLe_total z.2 y.2).resolve_right hxy, fun hc => absurd hc hxy⟩
      · exact hy z hz2

/-- The stable descending sort of a list whose indices strictly increase is
pairwise `rStable`: similarities are non-increasing, and equal
similarities keep their enumeration order. -/
theorem insertionSort_rStable (l : List (ℕ × SimVal))
    (hl : l.Pairwise fun a b => a.1 < b.1) :
    (l.insertionSort rDesc).Pairwise rStable := by
  induction l with
  | nil => simp [List.insertionSort]
  | cons x xs ih =>
    rw [List.insertionSort]
    rcases List.pairwise_cons.mp hl with ⟨hx, hxs⟩
    refine orderedInsert_rStable x _ (ih hxs) ?_
    intro z hz
    exact hx z ((List.mem_insertionSort rDesc).mp hz)

/-! ## Supporting lemmas: enumeration and the effectful loop -/

theorem pyEnumFrom_fst_le {n : ℕ} {l : List α} {p : ℕ × α}
    (h : p ∈ pyEnumFrom n l) : n ≤ p.1 := by
  induction l generalizing n with
  | nil => cases h
  | cons a l ih =>
    rcases List.mem_cons.mp h with rfl | h2
    · exact le_refl _
    · exact le_trans (Nat.le_succ n) (ih h2)

theorem pyEnumFrom_pairwise_fst (n : ℕ) (l : List α) :
    (pyEnumFrom n l).Pairwise fun a b => a.1 < b.1 := by
  induction l generalizing n with
  | nil => exact List.Pairwise.nil
  | cons a l ih =>
    refine List.Pairwise.cons ?_ (ih (n + 1))
    intro z hz
    exact lt_of_lt_of_le (Nat.lt_succ_self n) (pyEnumFrom_fst_le hz)

theorem pyEnumFrom_mem_snd {n : ℕ} {l : List α} {p : ℕ × α}
    (h : p ∈ pyEnumFrom n l) : p.2 ∈ l := by
  induction l generalizing n with
  | nil => cases h
  | cons a l ih =>
    rcases List.mem_cons.mp h with rfl | h2
    · exact List.mem_cons_self _ _
    · exact List.mem_cons_of_mem _ (ih h2)

theorem pyEnumFrom_length (n : ℕ) (l : List α) :
    (pyEnumFrom n l).length = l.length := by
  induction l generalizing n with
  | nil => rfl
  | cons a l ih => simp [pyEnumFrom, ih]

theorem exMap_ok {ε : Type} (f : α → Except ε β) (g : α → β) (l : List α)
    (h : ∀ a ∈ l, f a = .ok (g a)) : exMap f l = .ok (l.map g) := by
  induction l with
  | nil => rfl
  | cons a l ih =>
    rw [List.map_cons, exMap, h a (List.mem_cons_self _ _),
      ih fun x hx => h x (List.mem_cons_of_mem _ hx)]

theorem exMap_cons_error {ε : Type} {f : α → Except ε β} {a : α} {e : ε}
    (h : f a = .error e) (l : List α) : exMap f (a :: l) = .error e := by
  rw [exMap, h]

/-! ## C1: alignment invariant of the store -/

/-- Four equal-length lists are the four projections of one record list. -/
theorem exists_records (ids : List String) (embeds : List (List ℚ))
    (metas : List Metadata) (docs : List String)
    (h1 : ids.length = docs.length) (h2 : ids.length = embeds.length)
    (h3 : ids.length = metas.length) :
    ∃ rs : List RecordR, ids = rs.map RecordR.id ∧ docs = rs.map RecordR.document ∧
      embeds = rs.map RecordR.embedding ∧ metas = rs.map RecordR.metadata := by
  induction ids generalizing embeds metas docs with
  | nil =>
    refine ⟨[], rfl, ?_, ?_, ?_⟩
    · exact (List.length_eq_zero.mp h1.symm).symm ▸ rfl
    · exact (List.length_eq_zero.mp h2.symm).symm ▸ rfl
    · exact (List.length_eq_zero.mp h3.symm).symm ▸ rfl
  | cons i it ih =>
    cases docs with
    | nil => simp at h1
    | cons dc dt =>
      cases embeds with
      | nil => simp at h2
      | cons e et =>
        cases metas with
        | nil => simp at h3
        | cons m mt =>
          obtain ⟨rs, ha, hb, hc, hd⟩ := ih et mt dt
            (by simpa using h1) (by simpa using h2) (by simpa using h3)
          exact ⟨⟨i, dc, e, m⟩ :: rs, by simp [ha, hb, hc, hd]⟩

/-- C1: for every store state reachable from the empty store by any
sequence of `store_vectors` (with equal-length batches, the `store`
contract) and `clear_knowledge_base` calls, the four collections
`ids`, `documents`, `embeddings`, `metadatas` have equal length, and they
are the four projections of a single list of logical records — index `i`
of each collection describes record `i`. -/
theorem reachable_store_aligned (d : StoreData) (h : ReachableStore d) :
    (d.ids.length = d.documents.length ∧ d.ids.length = d.embeddings.length ∧
      d.ids.length = d.metadatas.length) ∧
    ∃ rs : List RecordR, d.ids = rs.map RecordR.id ∧
      d.documents = rs.map RecordR.document ∧
      d.embeddings = rs.map RecordR.embedding ∧
      d.metadatas = rs.map RecordR.metadata := by
  have hs : ∃ rs : List RecordR, d.ids = rs.map RecordR.id ∧
      d.documents = rs.map RecordR.document ∧
      d.embeddings = rs.map RecordR.embedding ∧
      d.metadatas = rs.map RecordR.metadata := by
    induction h with
    | empty => exact ⟨[], rfl, rfl, rfl, rfl⟩
    | store d ids embeds metas docs hd h1 h2 h3 ih =>
      obtain ⟨rs, e1, e2, e3, e4⟩ := ih
      obtain ⟨bs, f1, f2, f3, f4⟩ := exists_records ids embeds metas docs h1 h2 h3
      exact ⟨rs ++ bs, by simp [store_vectors, e1, e2, e3, e4, f1, f2, f3, f4]⟩
    | clear d hd _ => exact ⟨[], rfl, rfl, rfl, rfl⟩
  obtain ⟨rs, e1, e2, e3, e4⟩ := hs
  refine ⟨⟨?_, ?_, ?_⟩, rs, e1, e2, e3, e4⟩ <;> simp [e1, e2, e3, e4]

/-- Witness for C1 at a concrete reachable store (one `store_vectors` call
of a one-record batch on the empty store). -/
theorem reachable_store_aligned_witness :
    ReachableStore (store_vectors emptyStore ["a"] [[1]] [⟨"f", "0", "p"⟩] ["doc"]) ∧
    (((store_vectors emptyStore ["a"] [[1]] [⟨"f", "0", "p"⟩] ["doc"]).ids.length =
        (store_vectors emptyStore ["a"] [[1]] [⟨"f", "0", "p"⟩] ["doc"]).documents.length ∧
      (store_vectors emptyStore ["a"] [[1]] [⟨"f", "0", "p"⟩] ["doc"]).ids.length =
        (store_vectors emptyStore ["a"] [[1]] [⟨"f", "0", "p"⟩] ["doc"]).embeddings.length ∧
      (store_vectors emptyStore ["a"] [[1]] [⟨"f", "0", "p"⟩] ["doc"]).ids.length =
        (store_vectors emptyStore ["a"] [[1]] [⟨"f", "0", "p"⟩] ["doc"]).metadatas.length) ∧
    ∃ rs : List RecordR,
      (store_vectors emptyStore ["a"] [[1]] [⟨"f", "0", "p"⟩] ["doc"]).ids = rs.map RecordR.id ∧
      (store_vectors emptyStore ["a"] [[1]] [⟨"f", "0", "p"⟩] ["doc"]).documents = rs.map RecordR.document ∧
      (store_vectors emptyStore ["a"] [[1]] [⟨"f", "0", "p"⟩] ["doc"]).embeddings = rs.map RecordR.embedding ∧
      (store_vectors emptyStore ["a"] [[1]] [⟨"f", "0", "p"⟩] ["doc"]).metadatas = rs.map RecordR.metadata) :=
  have hr : ReachableStore (store_vectors emptyStore ["a"] [[1]] [⟨"f", "0", "p"⟩] ["doc"]) :=
    ReachableStore.store emptyStore _ _ _ _ ReachableStore.empty rfl rfl rfl
  ⟨hr, reachable_store_aligned _ hr⟩

/-! ## C2: ranking behaviour of `similarity_search` -/

/-- When every stored embedding has the query's dimension, the similarity
loop completes and produces the enumerated `cosSim` values. -/
theorem enumSims_ok (d : StoreData) (q : List ℚ)
    (hdim : ∀ e ∈ d.embeddings, e.length = q.length) :
    enumSims d q = .ok ((pyEnum d.embeddings).map fun p => (p.1, cosSim q p.2)) := by
  refine exMap_ok _ _ _ ?_
  intro p hp
  have hlen : q.length = p.2.length := (hdim p.2 (pyEnumFrom_mem_snd hp)).symm
  simp [cosine_similarity, if_pos hlen, Except.map]

theorem pySliceTo_length_le (l : List α) (k : ℤ) (hk : 0 ≤ k) :
    (pySliceTo l k).length ≤ k.toNat := by
  rw [pySliceTo, if_pos hk, List.length_take]
  exact min_le_left _ _

theorem pySliceTo_all (l : List α) (k : ℤ) (h : (l.length : ℤ) ≤ k) :
    pySliceTo l k = l := by
  have hk : (0 : ℤ) ≤ k := le_trans (Int.ofNat_nonneg _) h
  rw [pySliceTo, if_pos hk]
  refine List.take_of_length_le ?_
  omega

/-- C2: when the query's dimension matches every stored embedding,
`similarity_search` succeeds and returns the records built from a slice of
a ranked list which (a) is a permutation of all enumerated `(index,
similarity)` pairs, (b) is sorted by non-increasing similarity with equal
similarities kept in enumeration (insertion) order (`rStable`); the
returned results are sorted by non-increasing similarity, for `k > 0` at
most `k` records are returned, and for `k ≥` the number of stored records
the whole ranked list is returned. -/
theorem similarity_search_spec (d : StoreData) (q : List ℚ) (k : ℤ)
    (hdim : ∀ e ∈ d.embeddings, e.length = q.length) :
    ∃ ranked : List (ℕ × SimVal),
      similarity_search d q k = .ok ((pySliceTo ranked k).map (mkResult d)) ∧
      List.Perm ranked ((pyEnum d.embeddings).map fun p => (p.1, cosSim q p.2)) ∧
      ranked.Pairwise rStable ∧
      ((pySliceTo ranked k).map (mkResult d)).Pairwise
        (fun a b => simLe b.similarity a.similarity) ∧
      (0 < k → ((pySliceTo ranked k).map (mkResult d)).length ≤ k.toNat) ∧
      ((d.embeddings.length : ℤ) ≤ k →
        (pySliceTo ranked k).map (mkResult d) = ranked.map (mkResult d) ∧
        ranked.length = d.embeddings.length) := by
  cases hB : d.embeddings.isEmpty with
  | true =>
    have hnil : d.embeddings = [] := List.isEmpty_iff.mp hB
    refine ⟨[], ?_, ?_, List.Pairwise.nil, ?_, ?_, ?_⟩
    · simp [similarity_search, hB, pySliceTo]
    · simp [hnil, pyEnum, pyEnumFrom]
    · simp [pySliceTo]
    · intro _
      simp [pySliceTo]
    · intro _
      simp [pySliceTo, hnil]
  | false =>
    set sims := (pyEnum d.embeddings).map fun p => (p.1, cosSim q p.2) with hsims
    have hok : enumSims d q = .ok sims := enumSims_ok d q hdim
    set ranked := sims.insertionSort rDesc with hranked
    have hfst : sims.Pairwise fun a b => a.1 < b.1 := by
      refine List.Pairwise.map _ ?_ (pyEnumFrom_pairwise_fst 0 d.embeddings)
      intro a b hab
      exact hab
    have hstable : ranked.Pairwise rStable := insertionSort_rStable sims hfst
    have hlenranked : ranked.length = d.embeddings.length := by
      rw [hranked, List.length_insertionSort, hsims, List.length_map]
      exact pyEnumFrom_length 0 d.embeddings
    have hsub : List.Sublist (pySliceTo ranked k) ranked := by
      rw [pySliceTo]
      split_ifs <;> exact List.take_sublist _ _
    refine ⟨ranked, ?_, List.perm_insertionSort rDesc sims, hstable, ?_, ?_, ?_⟩
    · simp [similarity_search, hB, hok]
    · refine List.pairwise_map.mpr ?_
      exact (List.Pairwise.sublist hsub hstable).imp fun hab => hab.1
    · intro hk
      rw [List.length_map]
      exact pySliceTo_length_le ranked k hk.le
    · intro hk
      have hall : pySliceTo ranked k = ranked := by
        refine pySliceTo_all ranked k ?_
        rw [hlenranked]
        exact hk
      exact ⟨by rw [hall], hlenranked⟩

/-- Witness for C2 on a concrete two-record store. -/
theorem similarity_search_spec_witness :
    (∀ e ∈ (⟨["a", "b"], ["d0", "d1"], [[1], [2]], [default, default]⟩ :
        StoreData).embeddings, e.length = [(1 : ℚ)].length) ∧
    (∃ ranked : List (ℕ × SimVal),
      similarity_search ⟨["a", "b"], ["d0", "d1"], [[1], [2]], [default, default]⟩ [(1 : ℚ)] 1 =
        .ok ((pySliceTo ranked 1).map
          (mkResult ⟨["a", "b"], ["d0", "d1"], [[1], [2]], [default, default]⟩)) ∧
      List.Perm ranked
        ((pyEnum (⟨["a", "b"], ["d0", "d1"], [[1], [2]], [default, default]⟩ :
          StoreData).embeddings).map fun p => (p.1, cosSim [(1 : ℚ)] p.2)) ∧
      ranked.Pairwise rStable ∧
      ((pySliceTo ranked 1).map
        (mkResult ⟨["a", "b"], ["d0", "d1"], [[1], [2]], [default, default]⟩)).Pairwise
          (fun a b => simLe b.similarity a.similarity) ∧
      (0 < (1 : ℤ) → ((pySliceTo ranked 1).map
        (mkResult ⟨["a", "b"], ["d0", "d1"], [[1], [2]], [default, default]⟩)).length ≤
          (1 : ℤ).toNat) ∧
      (((⟨["a", "b"], ["d0", "d1"], [[1], [2]], [default, default]⟩ :
          StoreData).embeddings.length : ℤ) ≤ 1 →
        (pySliceTo ranked 1).map
          (mkResult ⟨["a", "b"], ["d0", "d1"], [[1], [2]], [default, default]⟩) =
          ranked.map (mkResult ⟨["a", "b"], ["d0", "d1"], [[1], [2]], [default, default]⟩) ∧
        ranked.length =
          (⟨["a", "b"], ["d0", "d1"], [[1], [2]], [default, default]⟩ :
            StoreData).embeddings.length)) :=
  ⟨by decide, similarity_search_spec _ _ _ (by decide)⟩

/-! ## C7: dimension mismatch on a non-empty store -/

/-- C7: on a non-empty store whose embeddings all have dimension `dim`, a
query vector of a different dimension makes `similarity_search` fail with
the dimension-mismatch error (the `ValueError` of `np.dot`), and the
store's four collections are unchanged (the search never writes). -/
theorem similarity_search_dim_mismatch (d : StoreData) (q : List ℚ) (k : ℤ) (dim : ℕ)
    (hne : d.embeddings ≠ [])
    (hfix : ∀ e ∈ d.embeddings, e.length = dim)
    (hq : q.length ≠ dim) :
    similarity_searchOp d q k = (.error .dimensionMismatch, d) := by
  obtain ⟨e0, rest, hE⟩ := List.exists_cons_of_ne_nil hne
  have hB : d.embeddings.isEmpty = false := by
    rw [hE]
    rfl
  have hcos : cosine_similarity q e0 = .error .dimensionMismatch := by
    rw [cosine_similarity, if_neg]
    intro hcon
    exact hq (by
      rw [hcon]
      exact hfix e0 (by
        rw [hE]
        exact List.mem_cons_self _ _))
  have henum : enumSims d q = .error .dimensionMismatch := by
    rw [enumSims, show pyEnum d.embeddings = (0, e0) :: pyEnumFrom 1 rest by
      rw [pyEnum, hE, pyEnumFrom]]
    refine exMap_cons_error ?_ _
    rw [hcos]
    rfl
  simp [similarity_searchOp, similarity_search, hB, henum]

/-- Witness for C7: store of one 2-dimensional embedding, 1-dimensional query. -/
theorem similarity_search_dim_mismatch_witness :
    ((⟨["a"], ["d0"], [[1, 2]], [default]⟩ : StoreData).embeddings ≠ [] ∧
      (∀ e ∈ (⟨["a"], ["d0"], [[1, 2]], [default]⟩ : StoreData).embeddings,
        e.length = 2) ∧
      [(1 : ℚ)].length ≠ 2) ∧
    similarity_searchOp ⟨["a"], ["d0"], [[1, 2]], [default]⟩ [(1 : ℚ)] 5 =
      (.error .dimensionMismatch, ⟨["a"], ["d0"], [[1, 2]], [default]⟩) :=
  ⟨⟨by decide, by decide, by decide⟩,
    similarity_search_dim_mismatch _ _ _ 2 (by decide) (by decide) (by decide)⟩

/-! ## C8: empty store and non-positive `k` -/

/-- Counterexample to C8 as stated: the claim says `k ≤ 0` returns the
empty list, but Python's `similarities[:k]` with a *negative* `k` drops
only the last `|k|` entries.  On a two-record store with `k = -1` the
search returns one record, not the empty list. -/
theorem similarity_search_negative_k_counterexample :
    similarity_search ⟨["a", "b"], ["d0", "d1"], [[1], [0]], [default, default]⟩
      [(1 : ℚ)] (-1) = .ok [⟨"d0", default, ⟨1, 1, one_pos⟩⟩] ∧
    (Except.ok [(⟨"d0", default, ⟨1, 1, one_pos⟩⟩ : SearchResult)] :
      Except Err (List SearchResult)) ≠ .ok [] := by
  constructor
  · have e1 : cosSim [(1 : ℚ)] [1] = ⟨1, 1, one_pos⟩ := by
      rw [cosSim, dif_neg (by norm_num [sumSq])]
      simp [dotP, sumSq]
    have e2 : cosSim [(1 : ℚ)] [0] = simZero := by
      rw [cosSim, dif_pos (by norm_num [sumSq] : sumSq [(1 : ℚ)] = 0 ∨ sumSq [(0 : ℚ)] = 0)]
    have henum : enumSims ⟨["a", "b"], ["d0", "d1"], [[1], [0]], [default, default]⟩
        [(1 : ℚ)] = .ok [(0, ⟨1, 1, one_pos⟩), (1, simZero)] := by
      rw [enumSims]
      show exMap _ [(0, [(1 : ℚ)]), (1, [0])] = _
      simp [exMap, cosine_similarity, e1, e2, Except.map]
    have hsort : List.insertionSort rDesc
        [((0 : ℕ), SimVal.mk 1 1 one_pos), (1, simZero)] =
        [(0, ⟨1, 1, one_pos⟩), (1, simZero)] := by
      refine List.Sorted.insertionSort_eq ?_
      refine List.pairwise_cons.mpr ⟨?_, List.pairwise_singleton _ _⟩
      intro z hz
      rcases List.mem_singleton.mp hz with rfl
      show simLe simZero ⟨1, 1, one_pos⟩
      rw [simLe]
      norm_num [simZero]
    simp only [similarity_search, List.isEmpty_cons, henum, hsort]
    show Except.ok _ = _
    norm_num [pySliceTo, mkResult]
  · intro h
    simp at h

/-- C8 (amended): a search on a store with zero records returns the empty
list and never raises, for any query vector and any `k`; `k = 0` returns
the empty list; but for `k < 0` the Python slice `[:k]` keeps all ranked
records except the last `|k|`, so the result has
`storeSize - |k|` entries (truncated at zero) instead of being empty. -/
theorem similarity_search_empty_and_zero_k (d : StoreData) (q : List ℚ) (k : ℤ)
    (hdim : ∀ e ∈ d.embeddings, e.length = q.length) :
    (d.embeddings = [] → ∀ q2 : List ℚ, ∀ k2 : ℤ, similarity_search d q2 k2 = .ok []) ∧
    (k = 0 → similarity_search d q k = .ok []) ∧
    (k < 0 → ∃ res, similarity_search d q k = .ok res ∧
      res.length = d.embeddings.length - (-k).toNat) := by
  refine ⟨?_, ?_, ?_⟩
  · intro hnil q2 k2
    have hB : d.embeddings.isEmpty = true := by
      rw [hnil]
      rfl
    simp [similarity_search, hB]
  · intro hk0
    subst hk0
    cases hB : d.embeddings.isEmpty with
    | true => simp [similarity_search, hB]
    | false => simp [similarity_search, hB, enumSims_ok d q hdim, pySliceTo]
  · intro hkneg
    cases hB : d.embeddings.isEmpty with
    | true =>
      refine ⟨[], by simp [similarity_search, hB], ?_⟩
      simp [List.isEmpty_iff.mp hB]
    | false =>
      have hok := enumSims_ok d q hdim
      refine ⟨(pySliceTo
          (((pyEnum d.embeddings).map fun p => (p.1, cosSim q p.2)).insertionSort rDesc)
          k).map (mkResult d), ?_, ?_⟩
      · simp [similarity_search, hB, hok]
      · rw [List.length_map, pySliceTo, if_neg (by omega : ¬(0 : ℤ) ≤ k),
          List.length_take, List.length_insertionSort, List.length_map,
          pyEnum, pyEnumFrom_length]
        exact min_eq_left (Nat.sub_le _ _)

/-- Witness for C8 (amended) on a concrete two-record store with `k = -1`. -/
theorem similarity_search_empty_and_zero_k_witness :
    (∀ e ∈ (⟨["a", "b"], ["d0", "d1"], [[1], [0]], [default, default]⟩ :
        StoreData).embeddings, e.length = [(1 : ℚ)].length) ∧
    (((⟨["a", "b"], ["d0", "d1"], [[1], [0]], [default, default]⟩ :
        StoreData).embeddings = [] → ∀ q2 : List ℚ, ∀ k2 : ℤ,
      similarity_search ⟨["a", "b"], ["d0", "d1"], [[1], [0]], [default, default]⟩
        q2 k2 = .ok []) ∧
    ((-1 : ℤ) = 0 →
      similarity_search ⟨["a", "b"], ["d0", "d1"], [[1], [0]], [default, default]⟩
        [(1 : ℚ)] (-1) = .ok []) ∧
    ((-1 : ℤ) < 0 → ∃ res,
      similarity_search ⟨["a", "b"], ["d0", "d1"], [[1], [0]], [default, default]⟩
        [(1 : ℚ)] (-1) = .ok res ∧
      res.length = (⟨["a", "b"], ["d0", "d1"], [[1], [0]], [default, default]⟩ :
        StoreData).embeddings.length - ((-(-1) : ℤ)).toNat)) :=
  ⟨by decide, similarity_search_empty_and_zero_k _ _ _ (by decide)⟩

/-! ## C10: the zero-norm guard of `_cosine_similarity` -/

/-- Counterexample to C10 as stated: the claim quantifies over *every* pair
of vectors, but for vectors of different dimensions (`[0]` and `[0, 0]`,
both of zero norm) `np.dot` raises before the zero-norm guard is reached,
so the helper raises instead of returning `0.0`. -/
theorem cosine_similarity_mismatch_counterexample :
    cosine_similarity [(0 : ℚ)] [0, 0] = .error .dimensionMismatch ∧
    (Except.error Err.dimensionMismatch : Except Err SimVal) ≠ .ok simZero := by
  constructor
  · rfl
  · intro h
    simp at h

/-- C10 (amended): for every pair of *equal-dimension* vectors, whenever
either vector has zero norm (zero sum of squares) the helper returns
exactly the value `0.0` (`simZero`), whose represented real number is `0`;
the division is guarded, and every produced denominator square `msq` is
positive, so the search never divides by zero. -/
theorem cosine_similarity_zero_norm_guard (v1 v2 : List ℚ)
    (hlen : v1.length = v2.length) (h0 : sumSq v1 = 0 ∨ sumSq v2 = 0) :
    cosine_similarity v1 v2 = .ok simZero ∧
    (simZero.num : ℝ) / Real.sqrt (simZero.msq : ℝ) = 0 ∧
    0 < (cosSim v1 v2).msq := by
  refine ⟨?_, by simp [simZero], (cosSim v1 v2).pos⟩
  rw [cosine_similarity, if_pos hlen, cosSim, dif_pos h0]

/-- Witness for C10 (amended) at the zero vector against itself. -/
theorem cosine_similarity_zero_norm_guard_witness :
    ([(0 : ℚ)].length = [(0 : ℚ)].length ∧
      (sumSq [(0 : ℚ)] = 0 ∨ sumSq [(0 : ℚ)] = 0)) ∧
    (cosine_similarity [(0 : ℚ)] [(0 : ℚ)] = .ok simZero ∧
      (simZero.num : ℝ) / Real.sqrt (simZero.msq : ℝ) = 0 ∧
      0 < (cosSim [(0 : ℚ)] [(0 : ℚ)]).msq) :=
  ⟨⟨rfl, Or.inl (by norm_num [sumSq])⟩,
    cosine_similarity_zero_norm_guard _ _ rfl (Or.inl (by norm_num [sumSq]))⟩

/-! ## C3: the RAG branch always falls back to the internet branch -/

/-- C3: `handle_rag_query` calls `query_with_context(query, k=5)` without
an `attachments` argument; `query_with_context` iterates its default
`attachments=None` and raises `TypeError`, so on any non-empty knowledge
base the branch always lands in its exception handler and invokes the
internet branch (whether or not the preceding `similarity_search`
succeeded), never returning a knowledge-base-grounded answer. -/
theorem handle_rag_query_always_falls_back (kb : StoreData) (qvec : List ℚ)
    (query : String) (hne : kb.documents.length ≠ 0) :
    handleRagQuery kb qvec query = .errorInternet ∧
    queryWithContextMessages query 5 none none none = .error .noneNotIterable := by
  refine ⟨?_, rfl⟩
  unfold handleRagQuery
  rw [if_neg hne]
  cases hs : similarity_search kb qvec 5 with
  | error e => rfl
  | ok res => rfl

/-- Witness for C3 on a concrete one-record knowledge base. -/
theorem handle_rag_query_always_falls_back_witness :
    (⟨["a"], ["doc"], [[1]], [default]⟩ : StoreData).documents.length ≠ 0 ∧
    (handleRagQuery ⟨["a"], ["doc"], [[1]], [default]⟩ [(1 : ℚ)] "q" = .errorInternet ∧
      queryWithContextMessages "q" 5 none none none = .error .noneNotIterable) :=
  ⟨by decide, handle_rag_query_always_falls_back _ _ _ (by decide)⟩

/-! ## C5: unrecognized classification dispatches to the internet branch -/

/-- Counterexample to C5 as stated: for the unrecognized classifier output
`"BANANA"` the orchestrator dispatches to the *internet* branch
(`orchestrateur.py:420-425`, "Default to internet search if unclear"), not
to an LLM direct-chat branch — the source has no LLM branch at all. -/
theorem orchestrator_dispatch_unrecognized_counterexample :
    orchestratorDispatch "BANANA" = .internet ∧ Branch.internet ≠ Branch.llm := by
  constructor
  · decide
  · decide

/-- C5 (amended): any classifier response in which the processed text
recognizes neither `RAG` nor `INTERNET` (including malformed or
unparseable output) dispatches to the INTERNET branch — a web search with
summarizing chat call — rather than aborting the turn; there is no LLM
direct-chat branch. -/
theorem orchestrator_dispatch_unrecognized (raw : String)
    (hrag : containsTool "RAG" (processedResponse raw) = false)
    (hint : containsTool "INTERNET" (processedResponse raw) = false) :
    orchestratorDispatch raw = .internet := by
  unfold orchestratorDispatch
  simp [hrag, hint]

/-- Witness for C5 (amended) at the unrecognized output `"XYZ"`. -/
theorem orchestrator_dispatch_unrecognized_witness :
    (containsTool "RAG" (processedResponse "XYZ") = false ∧
      containsTool "INTERNET" (processedResponse "XYZ") = false) ∧
    orchestratorDispatch "XYZ" = .internet :=
  ⟨⟨by decide, by decide⟩, orchestrator_dispatch_unrecognized "XYZ" (by decide) (by decide)⟩

/-! ## C9: the 50-character threshold of the scraping branch -/

/-- Counterexample to C9 as stated: the source tests
`len(content['content']) > 50`, so an extraction result of *exactly* 50
characters — which the claim says is answered — is treated as a failed
extraction and falls back to the internet branch. -/
theorem handle_wikipedia_scrap_50_char_counterexample :
    (String.mk (List.replicate 50 'a')).length = 50 ∧
    handleWikipediaScrap (String.mk (List.replicate 50 'a')) "q" "u" = .fallbackInternet ∧
    WikiOutcome.fallbackInternet ≠
      .answered (wikipediaChatMessages (String.mk (List.replicate 50 'a')) "q") "u" := by
  refine ⟨by decide, by decide, by decide⟩

/-- C9 (amended): extraction results of at most 50 characters (including
exactly 50, and in particular everything below 50) are treated as failed
extractions and fall back to the INTERNET branch; results of strictly more
than 50 characters are answered via one chat call grounded on the
extracted text. -/
theorem handle_wikipedia_scrap_threshold (content query url : String) :
    (content.length ≤ 50 → handleWikipediaScrap content query url = .fallbackInternet) ∧
    (50 < content.length →
      handleWikipediaScrap content query url =
        .answered (wikipediaChatMessages content query) url) := by
  constructor
  · intro h
    unfold handleWikipediaScrap
    rw [if_neg]
    rintro ⟨-, h2⟩
    omega
  · intro h
    unfold handleWikipediaScrap
    rw [if_pos]
    refine ⟨?_, h⟩
    intro hc
    rw [hc] at h
    simp at h

/-- Witness for C9 (amended): a 3-character extraction falls back, a
51-character extraction is answered. -/
theorem handle_wikipedia_scrap_threshold_witness :
    handleWikipediaScrap "abc" "q" "u" = .fallbackInternet ∧
    handleWikipediaScrap (String.mk (List.replicate 51 'a')) "q" "u" =
      .answered (wikipediaChatMessages (String.mk (List.replicate 51 'a')) "q") "u" :=
  ⟨(handle_wikipedia_scrap_threshold "abc" "q" "u").1 (by decide),
   (handle_wikipedia_scrap_threshold _ "q" "u").2 (by decide)⟩

/-! ## C6: `process_documents` return value and partial-failure semantics -/

/-- Whether one file is ingested does not depend on the current store. -/
theorem processOneDoc_isSome_indep (parse : String → Except Unit (List ChunkD))
    (embedText : String → Except Unit (List ℚ)) (d : StoreData) (f : DocInput) :
    (processOneDoc parse embedText d f).isSome = docSucceeds parse embedText f := by
  unfold docSucceeds processOneDoc
  rcases hp : parse f.path with e | chunks
  · rfl
  · cases chunks with
    | nil => rfl
    | cons c cs =>
      rcases hx : exMap (fun c => embedText c.chunk) (c :: cs) with e | embeds
      · simp [hx]
      · simp [hx]

/-- The per-file loop counts the ingested files and folds the per-file
store updates, skipping failing files. -/
theorem processDocumentsGo_spec (parse : String → Except Unit (List ChunkD))
    (embedText : String → Except Unit (List ℚ))
    (files : List DocInput) (count : ℕ) (d : StoreData) :
    processDocumentsGo parse embedText files count d =
      (count + (files.filter (docSucceeds parse embedText)).length,
       files.foldl (fun acc f => (processOneDoc parse embedText acc f).getD acc) d) := by
  induction files generalizing count d with
  | nil => simp [processDocumentsGo]
  | cons f rest ih =>
    cases hf : processOneDoc parse embedText d f with
    | none =>
      have hds : docSucceeds parse embedText f = false := by
        rw [← processOneDoc_isSome_indep parse embedText d f, hf]
        rfl
      simp [processDocumentsGo, hf, ih, List.filter_cons, hds]
    | some d2 =>
      have hds : docSucceeds parse embedText f = true := by
        rw [← processOneDoc_isSome_indep parse embedText d f, hf]
        rfl
      simp only [processDocumentsGo, hf, ih, List.filter_cons, hds, if_true,
        List.length_cons, List.foldl_cons, Option.getD_some]
      refine Prod.ext_iff.mpr ⟨?_, rfl⟩
      show count + 1 + _ = count + (_ + 1)
      omega

/-- C6 (amended): `process_documents` returns the *boolean*
`processed_count > 0` — whether at least one document was ingested — not
the count itself (the source docstring agrees: "Returns: bool"); and a
parse or embed error on one document is skipped without aborting the
batch: the final store is the in-order fold of the per-file updates over
*all* files, a failing file leaving the store unchanged, and every
remaining file still processed and stored. -/
theorem process_documents_spec (parse : String → Except Unit (List ChunkD))
    (embedText : String → Except Unit (List ℚ))
    (d : StoreData) (files : List DocInput) :
    process_documents parse embedText d files =
      (decide (0 < (files.filter (docSucceeds parse embedText)).length),
       files.foldl (fun acc f => (processOneDoc parse embedText acc f).getD acc) d) := by
  unfold process_documents
  cases hE : files.isEmpty with
  | true =>
    have : files = [] := List.isEmpty_iff.mp hE
    subst this
    simp
  | false =>
    rw [processDocumentsGo_spec]
    simp

/-- Counterexample to C6 as stated: with an always-succeeding parser and
embedder, a one-file batch and a two-file batch both return `true` even
though their success counts are `1` and `2`: the return value is the
boolean `processed_count > 0`, not the count of successfully ingested
documents that the claim describes. -/
theorem process_documents_count_counterexample :
    (process_documents (fun _ => .ok [⟨"c0", "t"⟩]) (fun _ => .ok [1]) emptyStore
      [⟨"a.pdf", "a.pdf", "a"⟩]).1 = true ∧
    (process_documents (fun _ => .ok [⟨"c0", "t"⟩]) (fun _ => .ok [1]) emptyStore
      [⟨"a.pdf", "a.pdf", "a"⟩, ⟨"b.pdf", "b.pdf", "b"⟩]).1 = true ∧
    ([(⟨"a.pdf", "a.pdf", "a"⟩ : DocInput)].filter
      (docSucceeds (fun _ => .ok [⟨"c0", "t"⟩]) (fun _ => .ok [1]))).length = 1 ∧
    ([(⟨"a.pdf", "a.pdf", "a"⟩ : DocInput), ⟨"b.pdf", "b.pdf", "b"⟩].filter
      (docSucceeds (fun _ => .ok [⟨"c0", "t"⟩]) (fun _ => .ok [1]))).length = 2 ∧
    (1 : ℕ) ≠ 2 := by
  refine ⟨by decide, by decide, by decide, by decide, by decide⟩

/-! ## C4: the orchestrator maintains no rolling conversation history -/

/-- The RAG branch can never reach its answered case (its
`query_with_context` call raises before the chat call, cf. C3). -/
theorem handleRagQuery_ne_answered (kb : StoreData) (qvec : List ℚ)
    (query : String) (msgs : List ChatMsg) :
    handleRagQuery kb qvec query ≠ .answeredFromKb msgs := by
  unfold handleRagQuery
  split_ifs
  · simp
  · cases similarity_search kb qvec 5 with
    | error e => simp
    | ok res => simp [queryWithContextMessages]

/-- C4 (amended): the orchestrator maintains no rolling conversation
history.  A plain-text turn leaves the cross-turn module state (which
contains no history container) unchanged, and every chat call issued
during the turn consists of exactly one system message followed by one
user message — no prior turn is ever injected.  (The `chat_history`
parameter of `query_with_context`, which would prepend a history, is never
supplied: the orchestrator's call passes only `query` and `k`.) -/
theorem orchestrator_turn_no_history (st : OrchestratorState) (inp : TurnInput) :
    (mainTextTurn st inp).2 = st ∧
    (∀ call ∈ (mainTextTurn st inp).1,
      ∃ s u, call = [⟨.system, s⟩, ⟨.user, u⟩]) := by
  refine ⟨rfl, ?_⟩
  intro call hcall
  have hint : call ∈ internetChatCalls inp →
      ∃ s u, call = [⟨Role.system, s⟩, ⟨Role.user, u⟩] := by
    intro hmem
    rw [internetChatCalls] at hmem
    split_ifs at hmem
    · rcases List.mem_singleton.mp hmem with rfl
      exact ⟨_, _, rfl⟩
    · cases hmem
  simp only [mainTextTurn] at hcall
  rcases List.mem_cons.mp hcall with rfl | htail
  · exact ⟨_, _, rfl⟩
  · by_cases hb : containsTool "RAG" (processedResponse inp.classifierResponse)
    · rw [if_pos hb] at htail
      rw [ragBranchChatCalls] at htail
      rcases hr : handleRagQuery st.kb inp.queryVec inp.query with _ | msgs | _
      · rw [hr] at htail
        exact hint htail
      · exact absurd hr (handleRagQuery_ne_answered _ _ _ _)
      · rw [hr] at htail
        exact hint htail
    · rw [if_neg hb] at htail
      exact hint htail

set_option maxRecDepth 8000 in
/-- Counterexample to C4 as stated, at one concrete successful
internet-branch turn: the claim requires the orchestrator's rolling
history after the turn to hold the appended pair
`[{user, "q1"}, {assistant, "a1"}]` (shown by the spec-modelled update),
but the turn's complete cross-turn module state — which has no history
component at all, because the module defines none — is returned unchanged,
and the only chat calls made are the two-message classifier and
summarizer calls containing no conversation turn. -/
theorem orchestrator_no_history_counterexample :
    mainTextTurn ⟨emptyStore⟩ ⟨"q1", "INTERNET", [], true, "ctx"⟩ =
      ([classifierMessages "q1", searchSummarizeMessages none "ctx" "q1"],
        ⟨emptyStore⟩) ∧
    specHistoryUpdate [] "q1" "a1" = [⟨.user, "q1"⟩, ⟨.assistant, "a1"⟩] ∧
    ([] : List ChatMsg) ≠ [⟨.user, "q1"⟩, ⟨.assistant, "a1"⟩] := by
  refine ⟨?_, by decide, by decide⟩
  have hno : containsTool "RAG" (processedResponse "INTERNET") = false := by decide
  simp only [mainTextTurn, hno, Bool.false_eq_true, if_false, internetChatCalls, if_true]
